import Mathlib

/-!
Shallow embedding of the diy-hub-backend request-orchestration core:
cache-key derivation and the in-memory cache (`src/unnamed/part_001`,
a wrapper over a node-cache store), the retry/backoff wrappers and the
response validators (`src/unnamed/part_003`), the inbound payload
validators (`src/utils/promptBuilder.js`), and the two route handlers
(`src/unnamed/part_000`, `src/routes/generate.js`).

JavaScript values are modelled by the inductive `JSON` below; absent
object properties are modelled as `Option.none`.  SHA-256 (used only to
compress composite keys to a fixed length) is modelled as an explicit
function parameter `H : String → String`, since every claim in scope
depends only on equality of the hash inputs, together with an explicit
collision-freeness (injectivity) hypothesis where the claim needs it.
-/

set_option maxRecDepth 8192

namespace DiyHub

/-- Model of a JavaScript/JSON value as it appears in parsed request and
response bodies.  Numbers are modelled as integers (all numeric values
exercised by the spec are integral). -/
inductive JSON where
  | null
  | bool (b : Bool)
  | num (n : Int)
  | str (s : String)
  | arr (elems : List JSON)
  | obj (fields : List (String × JSON))

/-- JavaScript truthiness: `null`, `false`, `0` and `""` are falsy;
arrays and objects are always truthy. -/
def JSON.truthy : JSON → Bool
  | .null => false
  | .bool b => b
  | .num n => n != 0
  | .str s => s != ""
  | .arr _ => true
  | .obj _ => true

/-- JavaScript `typeof` (restricted to the value forms modelled here);
note `typeof null`, `typeof []` and `typeof {}` are all `"object"`. -/
def JSON.typeOf : JSON → String
  | .null => "object"
  | .bool _ => "boolean"
  | .num _ => "number"
  | .str _ => "string"
  | .arr _ => "object"
  | .obj _ => "object"

/-- First-match lookup in an object's field list. -/
def lookupField : List (String × JSON) → String → Option JSON
  | [], _ => none
  | (k, v) :: rest, key => if k == key then some v else lookupField rest key

/-- Property access `j.key`: `none` models JavaScript `undefined`
(also used for property access on non-objects, which yields `undefined`
for primitives; the sources only access properties of decoded objects). -/
def JSON.get : JSON → String → Option JSON
  | .obj fs, key => lookupField fs key
  | _, _ => none

/-- The JavaScript `key in obj` presence test. -/
def JSON.hasField (j : JSON) (key : String) : Bool :=
  (j.get key).isSome

/-- Truthiness of `j.key` (an absent property is `undefined`, hence falsy). -/
def JSON.getTruthy (j : JSON) (key : String) : Bool :=
  match j.get key with
  | some v => v.truthy
  | none => false

/-- Update of the first occurrence of a field (JavaScript property
assignment on an object; appends when the key is absent). -/
def setField : List (String × JSON) → String → JSON → List (String × JSON)
  | [], key, v => [(key, v)]
  | (k, w) :: rest, key, v =>
    if k == key then (key, v) :: rest else (k, w) :: setField rest key v

/-- Property assignment `j.key = v` (no effect on non-objects). -/
def JSON.set : JSON → String → JSON → JSON
  | .obj fs, key, v => .obj (setField fs key v)
  | j, _, _ => j

/-- JavaScript `x || d` on an optional value: the original value when
truthy, otherwise the default (`undefined`, i.e. `none`, is falsy). -/
def jsOrVal (v : Option JSON) (dflt : JSON) : JSON :=
  match v with
  | some w => if w.truthy then w else dflt
  | none => dflt

/-- JavaScript nullish coalescing `x ?? d`: the default exactly when the
value is `null` or `undefined`. -/
def jsNullish (v : Option JSON) (dflt : JSON) : JSON :=
  match v with
  | some .null => dflt
  | some w => w
  | none => dflt

/-- Model of `String.prototype.toLowerCase` (pointwise lowering). -/
def jsToLowerCase (s : String) : String :=
  ⟨s.data.map Char.toLower⟩

/-- Model of `String.prototype.trim` (strip whitespace at both ends). -/
def jsTrim (s : String) : String :=
  ⟨((s.data.dropWhile Char.isWhitespace).reverse.dropWhile Char.isWhitespace).reverse⟩

/-- Composition used on every free-text key component in the source:
`x.toLowerCase().trim()`. -/
def jsNormalize (s : String) : String :=
  jsTrim (jsToLowerCase s)

/-!  Inbound payloads.  `src/unnamed/part_000` feeds `req.body` to
`validateMaterialData` and `generateCacheKey`; fields that the core never
reads (`unit`, `projectContext`) are omitted.  An absent request body is
modelled by `Option.none` around the whole payload. -/

/-- Material-enhancement request payload (the fields read by the core). -/
structure MaterialData where
  name : Option JSON
  category : Option JSON
  specification : Option JSON
  quantity : Option JSON

/-- Project-generation request payload: the handler reads only
`description`; the optional context object is carried opaquely. -/
structure ProjectData where
  description : Option JSON
  context : Option JSON

/-- Validation outcome `{ valid, error }` returned by the payload and
response validators (the source omits `error` on success; modelled as `""`). -/
structure Validation where
  valid : Bool
  error : String
deriving DecidableEq

/-- Does the optional value hold a string?  (JavaScript
`typeof x === 'string'`.) -/
def optIsString : Option JSON → Bool
  | some (.str _) => true
  | _ => false

/-- Does the optional value hold a number? -/
def optIsNumber : Option JSON → Bool
  | some (.num _) => true
  | _ => false

/-- Truthiness of an optional (possibly absent) value. -/
def optTruthy : Option JSON → Bool
  | some w => w.truthy
  | none => false

/-- Translation of `validateMaterialData` (`src/utils/promptBuilder.js`
lines 1071-1085): requires a truthy string `name` and a truthy number
`quantity`. -/
def validateMaterialData : Option MaterialData → Validation
  | none => ⟨false, "Material data is required"⟩
  | some md =>
    if !(optTruthy md.name) || !(optIsString md.name) then
      ⟨false, "Material name is required and must be a string"⟩
    else if !(optTruthy md.quantity) || !(optIsNumber md.quantity) then
      ⟨false, "Material quantity is required and must be a number"⟩
    else
      ⟨true, ""⟩

/-- Translation of `validateProjectData` (`src/utils/promptBuilder.js`
lines 1290-1304): requires a truthy string `description` of length at
least 10. -/
def validateProjectData : Option ProjectData → Validation
  | none => ⟨false, "Project data is required"⟩
  | some pd =>
    if !(optTruthy pd.description) || !(optIsString pd.description) then
      ⟨false, "Project description is required and must be a string"⟩
    else
      match pd.description with
      | some (.str s) =>
        if s.length < 10 then
          ⟨false, "Project description must be at least 10 characters"⟩
        else ⟨true, ""⟩
      | _ => ⟨false, "Project description is required and must be a string"⟩

/-!  Cache-key derivation (`src/unnamed/part_001` lines 16-32).  The
source computes `(field || dflt).toLowerCase().trim()` per component;
on a truthy non-string component `.toLowerCase()` would raise a
TypeError, modelled by `Option.none`. -/

/-- JavaScript `(x || dflt)` for a component that is subsequently used
as a string: `none` models the TypeError raised by calling a string
method on a truthy non-string. -/
def jsStrOr (v : Option JSON) (dflt : String) : Option String :=
  match v with
  | some w =>
    if w.truthy then
      match w with
      | .str s => some s
      | _ => none
    else some dflt
  | none => some dflt

/-- One normalized key component: `(field || dflt).toLowerCase().trim()`. -/
def normalizeComponent (v : Option JSON) (dflt : String) : Option String :=
  (jsStrOr v dflt).map jsNormalize

/-- The composite key string
`` `${name}_${category}_${spec}_${version}` `` with `version = 'v1'`;
this is the exact input the source feeds to SHA-256. -/
def compositeKey (m : MaterialData) : Option String := do
  let n ← normalizeComponent m.name ""
  let c ← normalizeComponent m.category ""
  let s ← normalizeComponent m.specification "no-spec"
  pure (n ++ "_" ++ c ++ "_" ++ s ++ "_" ++ "v1")

/-- Translation of `generateCacheKey`: the SHA-256 hex digest of the
composite key.  The digest function is the parameter `H`. -/
def generateCacheKey (H : String → String) (m : MaterialData) : Option String :=
  (compositeKey m).map H

/-- Convenient constructor for a material payload whose fields are
strings or absent (the domain on which key derivation is exercised). -/
def mkMat (n c s : Option String) : MaterialData :=
  ⟨n.map .str, c.map .str, s.map .str, none⟩

/-- The hash input of the project-generation cache key
(`src/routes/generate.js` lines 35-38): exactly the lowercased, trimmed
description — no context field and no version tag enters it.  `none`
models the TypeError on a non-string description. -/
def projectHashInput (p : ProjectData) : Option String :=
  match p.description with
  | some (.str s) => some (jsNormalize s)
  | _ => none

/-- Translation of the generate-route cache key
`` `project_${descriptionHash}` `` (`src/routes/generate.js` line 39). -/
def generateProjectCacheKey (H : String → String) (p : ProjectData) : Option String :=
  (projectHashInput p).map (fun h => "project_" ++ H h)

/-!  The cache (`src/unnamed/part_001`).  The wrapper functions
`getCached`/`setCached` delegate to a node-cache store created with
`stdTTL: 604800`, `maxKeys: 1000`.  The underlying store is modelled
with the behaviour the spec documents for it (§4.2): read-time expiry
(an expired entry is treated as absent and dropped on read, as
node-cache deletes expired entries when `get` touches them), and
reject-on-full — `set` of a new key reports failure once `maxKeys`
entries are live.  Timestamps are milliseconds; TTLs are seconds. -/

/-- Default TTL of the store, in seconds (`stdTTL: 604800`, 7 days). -/
def stdTTL : Nat := 604800

/-- Maximum entry count of the store (`maxKeys: 1000`). -/
def maxKeys : Nat := 1000

/-- One live cache entry. -/
structure CacheEntry (α : Type) where
  key : String
  value : α
  expiresAt : Nat

/-- State of the process-wide cache: live entries plus the hit/miss
telemetry counters node-cache maintains. -/
structure CacheState (α : Type) where
  entries : List (CacheEntry α)
  hits : Nat
  misses : Nat

/-- The empty cache, as initialized at process start. -/
def emptyCache (α : Type) : CacheState α :=
  ⟨[], 0, 0⟩

/-- Store-level `get` at time `now`: a present, unexpired entry is a hit
(hit counter bumped); an expired entry is deleted and counts as a miss,
as does an absent key. -/
def cacheGet (st : CacheState α) (k : String) (now : Nat) :
    Option α × CacheState α :=
  match st.entries.find? (fun e => e.key == k) with
  | some e =>
    if now ≤ e.expiresAt then
      (some e.value, ⟨st.entries, st.hits + 1, st.misses⟩)
    else
      (none, ⟨st.entries.eraseP (fun e2 => e2.key == k), st.hits, st.misses + 1⟩)
  | none => (none, ⟨st.entries, st.hits, st.misses + 1⟩)

/-- Store-level `set`: overwrite an existing key in place; insert a new
key only below the `maxKeys` bound, otherwise report failure and leave
the store unchanged (reject-on-full, spec §4.2). -/
def cacheSet (st : CacheState α) (k : String) (v : α) (expiresAt : Nat) :
    Bool × CacheState α :=
  if st.entries.any (fun e => e.key == k) then
    (true,
     ⟨st.entries.map (fun e => if e.key == k then ⟨k, v, expiresAt⟩ else e),
      st.hits, st.misses⟩)
  else if maxKeys ≤ st.entries.length then
    (false, st)
  else
    (true, ⟨⟨k, v, expiresAt⟩ :: st.entries, st.hits, st.misses⟩)

/-- Translation of `getCached` (`src/unnamed/part_001` lines 39-47):
returns the live value or null.  (The stored values are validated
response objects, which are always truthy, so the wrapper's truthiness
test on the retrieved value coincides with presence.) -/
def getCached (st : CacheState α) (k : String) (now : Nat) :
    Option α × CacheState α :=
  cacheGet st k now

/-- Translation of `setCached` (`src/unnamed/part_001` lines 55-63):
stores under the default TTL when none is given, returns the store's
success flag, and only logs on failure. -/
def setCached (st : CacheState α) (k : String) (v : α) (ttl : Option Nat)
    (now : Nat) : Bool × CacheState α :=
  cacheSet st k v (now + (ttl.getD stdTTL) * 1000)

/-!  Error model and the retry wrappers (`src/unnamed/part_003`).
A JavaScript error is a message plus the optional numeric `status` the
Anthropic SDK attaches to API failures; errors constructed with
`new Error(msg)` carry no status. -/

/-- A JavaScript error value: message plus optional HTTP status. -/
structure JSError where
  message : String
  status : Option Nat
deriving DecidableEq

/-- Translation of the catch-block rewriting shared by
`getProductRecommendation`, `generateProjectPlan` and `explainStep`
(`src/unnamed/part_003` lines 70-83, 247-260, 414-427): a 401, 429 or
5xx upstream failure is replaced by a fresh `Error` with a friendlier
message — and, crucially, with no `status` property; every other error
is rethrown unchanged. -/
def enhanceErrorContext (e : JSError) : JSError :=
  if e.status = some 401 then ⟨"Invalid Anthropic API key", none⟩
  else if e.status = some 429 then ⟨"Rate limit exceeded on Claude API", none⟩
  else if (match e.status with | some s => decide (500 ≤ s) | none => false) then
    ⟨"Claude API server error", none⟩
  else e

/-- The retry wrappers' stop test (`src/unnamed/part_003` line 103):
`error.status >= 400 && error.status < 500 && error.status !== 429`.
With an undefined status every comparison is false, so the error is
treated as retryable. -/
def shouldStopRetry (e : JSError) : Bool :=
  match e.status with
  | some s => decide (400 ≤ s) && decide (s < 500) && decide (s ≠ 429)
  | none => false

/-- Model of one call to `getProductRecommendation` (and of its clones
`generateProjectPlan` / `explainStep`): the argument is the outcome of
this attempt's inner pipeline — `Except.ok` for a validated response,
`Except.error` for the fault raised inside the `try` (an SDK error
carrying its HTTP status, or a status-less decode/contract/no-text
error) — and the catch block rewrites it as above. -/
def getProductRecommendation (outcome : Except JSError α) : Except JSError α :=
  match outcome with
  | .ok v => .ok v
  | .error e => .error (enhanceErrorContext e)

/-- Observable result of a whole retry-wrapper call: the surfaced value
or error, the number of attempts actually made, and the backoff delays
(in milliseconds) slept between attempts, in order. -/
structure RetryTrace (α : Type) where
  result : Except JSError α
  attemptsMade : Nat
  delays : List Nat

/-- The retry loop shared verbatim by the three `...WithRetry` wrappers
(`src/unnamed/part_003` lines 92-117, 269-294, 436-461): attempts are
indexed from 0; a caught error is surfaced at once when
`shouldStopRetry` holds, otherwise the loop sleeps `2 ^ attempt * 1000`
milliseconds and retries while `attempt < maxRetries`; after the loop
the last error is rethrown.  `fuel` is `maxRetries + 1 - attempt`,
passed separately only to exhibit termination. -/
def retryLoop (act : Nat → Except JSError α) (maxRetries : Nat) :
    Nat → Nat → List Nat → JSError → RetryTrace α
  | attempt, 0, delays, lastErr => ⟨.error lastErr, attempt, delays⟩
  | attempt, fuel + 1, delays, _lastErr =>
    match act attempt with
    | .ok v => ⟨.ok v, attempt + 1, delays⟩
    | .error e =>
      if shouldStopRetry e then ⟨.error e, attempt + 1, delays⟩
      else if attempt < maxRetries then
        retryLoop act maxRetries (attempt + 1) fuel
          (delays ++ [2 ^ attempt * 1000]) e
      else ⟨.error e, attempt + 1, delays⟩

/-- Translation of `getProductRecommendationWithRetry`
(`src/unnamed/part_003` lines 92-117).  `attempts i` is the inner
pipeline outcome of attempt `i` for the given material data. -/
def getProductRecommendationWithRetry (attempts : Nat → Except JSError α)
    (maxRetries : Nat) : RetryTrace α :=
  retryLoop (fun i => getProductRecommendation (attempts i)) maxRetries
    0 (maxRetries + 1) [] ⟨"", none⟩

/-- Translation of `generateProjectPlanWithRetry` (`src/unnamed/part_003`
lines 269-294); its loop body is identical to the material wrapper's. -/
def generateProjectPlanWithRetry (attempts : Nat → Except JSError α)
    (maxRetries : Nat) : RetryTrace α :=
  getProductRecommendationWithRetry attempts maxRetries

/-- Translation of `explainStepWithRetry` (`src/unnamed/part_003`
lines 436-461); its loop body is identical to the material wrapper's. -/
def explainStepWithRetry (attempts : Nat → Except JSError α)
    (maxRetries : Nat) : RetryTrace α :=
  getProductRecommendationWithRetry attempts maxRetries

/-!  Route handlers. -/

/-- HTTP response sent by a handler: the success envelope
`{success:true, data, cached}`, the 400 validation envelope
`{success:false, error:'Validation ...', message}`, or an error passed
to `next(error)` for the error middleware. -/
inductive ApiResponse (α : Type) where
  | ok (data : α) (cached : Bool)
  | validationFailure (message : String)
  | failure (e : JSError)

/-- Observable outcome of one handler invocation: the response, the
cache state afterwards, and how many external-API attempts were made. -/
structure HandlerRun (α : Type) where
  resp : ApiResponse α
  cache : CacheState α
  apiAttempts : Nat

/-- Translation of the `POST /api/enhance-material` handler
(`src/unnamed/part_000` lines 11-57): validate, derive the key, try the
cache, on a miss call the retry wrapper (default `maxRetries = 2`),
best-effort cache the result, and answer with `cached:false`.
`attempts` is the per-attempt outcome oracle of the external call for
this payload; `now` is the current time in milliseconds. -/
def enhanceMaterialHandler (H : String → String)
    (attempts : Nat → Except JSError α) (now : Nat) (st : CacheState α)
    (body : Option MaterialData) : HandlerRun α :=
  let validation := validateMaterialData body
  if validation.valid = false then
    ⟨.validationFailure validation.error, st, 0⟩
  else
    match body with
    | none =>
      -- unreachable: a missing body never passes validation
      ⟨.failure ⟨"Material data is required", none⟩, st, 0⟩
    | some md =>
      match generateCacheKey H md with
      | none =>
        -- a TypeError in key derivation propagates to next(error)
        ⟨.failure ⟨"TypeError", none⟩, st, 0⟩
      | some cacheKey =>
        match getCached st cacheKey now with
        | (some v, st1) => ⟨.ok v true, st1, 0⟩
        | (none, st1) =>
          let r := getProductRecommendationWithRetry attempts 2
          match r.result with
          | .error e => ⟨.failure e, st1, r.attemptsMade⟩
          | .ok v =>
            let st2 := (setCached st1 cacheKey v none now).2
            ⟨.ok v false, st2, r.attemptsMade⟩

/-- Translation of the `POST /api/generate-project` handler
(`src/routes/generate.js` lines 20-74): validate, hash the normalized
description into `project_`-prefixed key, try the cache, on a miss call
the retry wrapper, cache the plan, answer with `cached:false`. -/
def generateProjectHandler (H : String → String)
    (attempts : Nat → Except JSError α) (now : Nat) (st : CacheState α)
    (body : Option ProjectData) : HandlerRun α :=
  let validation := validateProjectData body
  if validation.valid = false then
    ⟨.validationFailure validation.error, st, 0⟩
  else
    match body with
    | none =>
      -- unreachable: a missing body never passes validation
      ⟨.failure ⟨"Project data is required", none⟩, st, 0⟩
    | some pd =>
      match generateProjectCacheKey H pd with
      | none =>
        -- unreachable after validation (description is a string)
        ⟨.failure ⟨"TypeError", none⟩, st, 0⟩
      | some cacheKey =>
        match getCached st cacheKey now with
        | (some v, st1) => ⟨.ok v true, st1, 0⟩
        | (none, st1) =>
          let r := generateProjectPlanWithRetry attempts 2
          match r.result with
          | .error e => ⟨.failure e, st1, r.attemptsMade⟩
          | .ok v =>
            let st2 := (setCached st1 cacheKey v none now).2
            ⟨.ok v false, st2, r.attemptsMade⟩

/-!  Project-plan structural validation and the tools normalization pass
(`src/unnamed/part_003` lines 205-237 and 301-365). -/

/-- The field list of `validateProjectPlan`'s presence loop
(`src/unnamed/part_003` lines 306-319); `successCriteria` is
deliberately absent. -/
def requiredPlanFields : List String :=
  ["title", "description", "category", "difficulty", "estimatedTime",
   "steps", "materials", "tools", "safetyTips", "estimatedCost",
   "commonMistakes"]

/-- The early-return presence loop: the first required field not present
on the candidate, if any. -/
def findMissingField (j : JSON) : List String → Option String
  | [] => none
  | f :: rest => if j.hasField f then findMissingField j rest else some f

/-- Per-step check (`src/unnamed/part_003` lines 333-342): a truthy
step-identifying field under either historical name (`stepNumber` or
`order`), a truthy `title`, and a truthy instruction under either
historical name (`instruction` or `instructions`). -/
def stepOk (step : JSON) : Bool :=
  (step.getTruthy "stepNumber" || step.getTruthy "order") &&
  step.getTruthy "title" &&
  (step.getTruthy "instruction" || step.getTruthy "instructions")

/-- Is `j.key` an array?  (JavaScript `Array.isArray(plan[key])`.) -/
def JSON.fieldIsArray (j : JSON) (key : String) : Bool :=
  match j.get key with
  | some (.arr _) => true
  | _ => false

/-- Translation of `validateProjectPlan` (`src/unnamed/part_003`
lines 301-365). -/
def validateProjectPlan (plan : JSON) : Validation :=
  if !plan.truthy || plan.typeOf != "object" then
    ⟨false, "Project plan must be an object"⟩
  else
    match findMissingField plan requiredPlanFields with
    | some f => ⟨false, "Missing required field: " ++ f⟩
    | none =>
      match plan.get "steps" with
      | some (.arr steps) =>
        if steps.isEmpty then
          ⟨false, "steps must be a non-empty array"⟩
        else if !steps.all stepOk then
          ⟨false,
           "Each step must have stepNumber/order, title, and instruction/instructions"⟩
        else if !plan.fieldIsArray "materials" then
          ⟨false, "materials must be an array"⟩
        else if !plan.fieldIsArray "tools" then
          ⟨false, "tools must be an array"⟩
        else if !plan.fieldIsArray "safetyTips" then
          ⟨false, "safetyTips must be an array"⟩
        else if !plan.fieldIsArray "commonMistakes" then
          ⟨false, "commonMistakes must be an array"⟩
        else ⟨true, ""⟩
      | _ => ⟨false, "steps must be a non-empty array"⟩

/-- The alternative filter of the normalization pass
(`src/unnamed/part_003` lines 220-226): keep an alternative only when
both `name` and `specification` are truthy. -/
def altOk (alt : JSON) : Bool :=
  alt.getTruthy "name" && alt.getTruthy "specification"

/-- Per-tool normalization (`src/unnamed/part_003` lines 207-235):
a string (or any non-array) `alternatives` value becomes `[]`,
malformed alternatives are dropped, and the tool is rebuilt with safe
defaults — `name || 'Unknown Tool'`, `specification || ''`,
`required ?? true`, `usage || ''`. -/
def normalizeTool (tool : JSON) : JSON :=
  let alts :=
    match tool.get "alternatives" with
    | some (.arr xs) => xs
    | _ => []
  JSON.obj
    [("name", jsOrVal (tool.get "name") (.str "Unknown Tool")),
     ("specification", jsOrVal (tool.get "specification") (.str "")),
     ("required", jsNullish (tool.get "required") (.bool true)),
     ("alternatives", .arr (alts.filter altOk)),
     ("usage", jsOrVal (tool.get "usage") (.str ""))]

/-- The plan-level normalization pass (`src/unnamed/part_003`
lines 206 and 236): when `plan.tools` is an array, map `normalizeTool`
over it; otherwise leave the plan untouched. -/
def normalizePlanTools (plan : JSON) : JSON :=
  match plan.get "tools" with
  | some (.arr xs) => plan.set "tools" (.arr (xs.map normalizeTool))
  | _ => plan

/-!  Concrete fixtures used to evaluate the theorems below on closed
inputs. -/

/-- A material payload `{name:"Paint", quantity:2}`. -/
def paintPayload : MaterialData :=
  ⟨some (.str "Paint"), none, none, some (.num 2)⟩

/-- An invalid material payload `{quantity:2}` (missing `name`). -/
def quantityOnlyPayload : MaterialData :=
  ⟨none, none, none, some (.num 2)⟩

/-- One thousand unrelated live entries: a store at its `maxKeys` bound. -/
def fullCacheEntries : List (CacheEntry Nat) :=
  (List.range maxKeys).map (fun i => ⟨"k" ++ toString i, 0, 1000000000000⟩)

/-- A cache state at capacity. -/
def fullCacheNat : CacheState Nat :=
  ⟨fullCacheEntries, 0, 0⟩

/-- A sample tool whose `alternatives` is the scalar string `"n/a"`. -/
def toolWithStringAlts : JSON :=
  .obj [("name", .str "Hammer"), ("alternatives", .str "n/a")]

/-- A project payload with a description and some context. -/
def mkProj (desc : String) (ctx : Option JSON) : ProjectData :=
  ⟨some (.str desc), ctx⟩

/-!  Helper lemmas. -/

/-- Splitting at an underscore separator is unambiguous when the left
components are underscore-free. -/
theorem sepSplit (a : List Char) : ∀ (b x y : List Char), '_' ∉ a → '_' ∉ b →
    a ++ '_' :: x = b ++ '_' :: y → a = b ∧ x = y := by
  induction a with
  | nil =>
    intro b x y _ hb h
    cases b with
    | nil =>
      refine ⟨rfl, ?_⟩
      simpa using h
    | cons c bt =>
      rw [List.nil_append, List.cons_append] at h
      exact absurd (by simp [← (List.cons.inj h).1]) hb
  | cons hd tl ih =>
    intro b x y ha hb h
    cases b with
    | nil =>
      rw [List.cons_append, List.nil_append] at h
      exact absurd (by simp [(List.cons.inj h).1]) ha
    | cons c ct =>
      rw [List.cons_append, List.cons_append] at h
      obtain ⟨h1, h2⟩ := List.cons.inj h
      have ha' : '_' ∉ tl := fun hm => ha (List.mem_cons_of_mem _ hm)
      have hb' : '_' ∉ ct := fun hm => hb (List.mem_cons_of_mem _ hm)
      obtain ⟨e1, e2⟩ := ih ct x y ha' hb'  h2
      exact ⟨by rw [h1, e1], e2⟩

/-- Character data of the composite key string. -/
theorem compositeData (n c s : String) :
    (n ++ "_" ++ c ++ "_" ++ s ++ "_" ++ "v1").data =
      n.data ++ '_' :: (c.data ++ '_' :: (s.data ++ ['_', 'v', '1'])) := by
  have hu : ("_" : String).data = ['_'] := rfl
  have hv : ("v1" : String).data = ['v', '1'] := rfl
  simp [String.data_append, hu, hv]

/-- The composite key determines its name, category and specification
components whenever name and category are underscore-free. -/
theorem compositeInj {n c s n' c' s' : String}
    (hn : '_' ∉ n.data) (hc : '_' ∉ c.data)
    (hn' : '_' ∉ n'.data) (hc' : '_' ∉ c'.data)
    (h : n ++ "_" ++ c ++ "_" ++ s ++ "_" ++ "v1" =
         n' ++ "_" ++ c' ++ "_" ++ s' ++ "_" ++ "v1") :
    n = n' ∧ c = c' ∧ s = s' := by
  have hd := congrArg String.data h
  rw [compositeData, compositeData] at hd
  obtain ⟨e1, h2⟩ := sepSplit n.data n'.data _ _ hn hn' hd
  obtain ⟨e2, h3⟩ := sepSplit c.data c'.data _ _ hc hc' h2
  have e3 : s.data = s'.data := List.append_cancel_right h3
  exact ⟨String.ext e1, String.ext e2, String.ext e3⟩

/-- Unfolding of `compositeKey` from its three normalized components. -/
theorem compositeKey_of {m : MaterialData} {n c s : String}
    (hn : normalizeComponent m.name "" = some n)
    (hc : normalizeComponent m.category "" = some c)
    (hs : normalizeComponent m.specification "no-spec" = some s) :
    compositeKey m = some (n ++ "_" ++ c ++ "_" ++ s ++ "_" ++ "v1") := by
  simp [compositeKey, hn, hc, hs]

/-- The field-presence loop succeeds exactly when every listed field is
present. -/
theorem findMissingField_eq_none {j : JSON} :
    ∀ fs, findMissingField j fs = none ↔ ∀ f ∈ fs, j.hasField f = true := by
  intro fs
  induction fs with
  | nil => simp [findMissingField]
  | cons f rest ih =>
    cases hf : j.hasField f <;> simp [findMissingField, hf, ih]

/-- A field reported missing by the presence loop is indeed absent. -/
theorem findMissingField_eq_some {j : JSON} :
    ∀ fs f, findMissingField j fs = some f → f ∈ fs ∧ j.hasField f = false := by
  intro fs
  induction fs with
  | nil => simp [findMissingField]
  | cons g rest ih =>
    intro f h
    cases hg : j.hasField g with
    | true =>
      rw [findMissingField, if_pos hg] at h
      exact ⟨List.mem_cons_of_mem _ (ih f h).1, (ih f h).2⟩
    | false =>
      rw [findMissingField, if_neg (by simp [hg])] at h
      cases h
      exact ⟨List.mem_cons_self _ _, hg⟩

/-- The retry loop never makes more than `maxRetries + 1` attempts. -/
theorem retryLoop_attempts_le (act : Nat → Except JSError α) (m : Nat) :
    ∀ fuel attempt delays le, attempt ≤ m →
    (retryLoop act m attempt fuel delays le).attemptsMade ≤ m + 1 := by
  intro fuel
  induction fuel with
  | zero => intro attempt delays le h; exact Nat.le_succ_of_le h
  | succ fuel ih =>
    intro attempt delays le h
    rw [retryLoop]
    cases act attempt with
    | ok v => exact Nat.succ_le_succ h
    | error e =>
      cases hs : shouldStopRetry e with
      | true => simp only [hs, if_true]; exact Nat.succ_le_succ h
      | false =>
        simp only [hs, Bool.false_eq_true, if_false]
        by_cases hlt : attempt < m
        · rw [if_pos hlt]
          exact ih (attempt + 1) _ e hlt
        · rw [if_neg hlt]
          exact Nat.succ_le_succ h

/-- When every attempt fails with a non-stopping error, the loop runs
all remaining attempts, sleeps the exponential backoff schedule, and
surfaces the error of the final attempt. -/
theorem retryLoop_all_fail (act : Nat → Except JSError α) (m : Nat)
    (E : Nat → JSError) (hact : ∀ i, act i = .error (E i))
    (hns : ∀ i, shouldStopRetry (E i) = false) :
    ∀ k attempt delays le, attempt + k = m →
    retryLoop act m attempt (k + 1) delays le =
      ⟨.error (E m), m + 1,
       delays ++ (List.range' attempt k).map (fun i => 2 ^ i * 1000)⟩ := by
  intro k
  induction k with
  | zero =>
    intro attempt delays le h
    rw [Nat.add_zero] at h
    subst h
    rw [retryLoop, hact]
    simp [hns, Nat.lt_irrefl, List.range']
  | succ k ih =>
    intro attempt delays le h
    have hlt : attempt < m := by omega
    rw [retryLoop, hact]
    simp only [hns, Bool.false_eq_true, if_false, hlt, if_true]
    rw [ih (attempt + 1) (delays ++ [2 ^ attempt * 1000]) (E attempt) (by omega)]
    simp [List.range'_succ, List.append_assoc]

/-- Interaction of `jsOrVal` with its own output. -/
theorem jsOrVal_idem (v : Option JSON) (d : JSON) :
    jsOrVal (some (jsOrVal v d)) d = jsOrVal v d := by
  cases v with
  | none => cases hd : d.truthy <;> simp [jsOrVal, hd]
  | some w =>
    cases hw : w.truthy with
    | true => simp [jsOrVal, hw]
    | false => cases hd : d.truthy <;> simp [jsOrVal, hw, hd]

/-- Interaction of `jsNullish` (default `true`) with its own output. -/
theorem jsNullish_true_idem (v : Option JSON) :
    jsNullish (some (jsNullish v (.bool true))) (.bool true) =
      jsNullish v (.bool true) := by
  cases v with
  | none => rfl
  | some w => cases w <;> rfl

/-- Filtering an already-filtered list changes nothing. -/
theorem filter_altOk_idem (xs : List JSON) :
    (xs.filter altOk).filter altOk = xs.filter altOk :=
  List.filter_eq_self.mpr (fun _ ha => List.of_mem_filter ha)

/-- Updating the same field twice keeps only the second update. -/
theorem setField_setField (fs : List (String × JSON)) (k : String) (v w : JSON) :
    setField (setField fs k v) k w = setField fs k w := by
  induction fs with
  | nil => simp [setField]
  | cons p rest ih =>
    obtain ⟨k', v'⟩ := p
    cases hk : k' == k <;> simp [setField, hk, ih]

/-- Reading back a field just written. -/
theorem lookup_setField (fs : List (String × JSON)) (k : String) (v : JSON) :
    lookupField (setField fs k v) k = some v := by
  induction fs with
  | nil => simp [setField, lookupField]
  | cons p rest ih =>
    obtain ⟨k', v'⟩ := p
    cases hk : k' == k <;> simp [setField, lookupField, hk, ih]

/-- No fixture key collides with the key of the paint payload. -/
theorem fullCache_no_paint_key :
    ∀ e ∈ fullCacheEntries, e.key ≠ "paint__no-spec_v1" := by
  intro e he
  rw [fullCacheEntries, List.mem_map] at he
  obtain ⟨i, _, rfl⟩ := he
  intro h
  have hd := congrArg String.data h
  rw [String.data_append] at hd
  exact absurd (List.cons.inj hd).1 (by decide)

/-- The fixture store is exactly at the `maxKeys` bound. -/
theorem fullCache_at_capacity : maxKeys ≤ fullCacheNat.entries.length := by
  simp [fullCacheNat, fullCacheEntries]

/-- Field reads on a normalized tool. -/
theorem normalizeTool_get (t : JSON) :
    (normalizeTool t).get "name" = some (jsOrVal (t.get "name") (.str "Unknown Tool")) ∧
    (normalizeTool t).get "specification" = some (jsOrVal (t.get "specification") (.str "")) ∧
    (normalizeTool t).get "required" = some (jsNullish (t.get "required") (.bool true)) ∧
    (normalizeTool t).get "alternatives" =
      some (.arr ((match t.get "alternatives" with
                   | some (.arr xs) => xs
                   | _ => []).filter altOk)) ∧
    (normalizeTool t).get "usage" = some (jsOrVal (t.get "usage") (.str "")) := by
  refine ⟨rfl, rfl, rfl, ?_, rfl⟩
  rw [normalizeTool]
  rfl

/-- Per-tool normalization is idempotent. -/
theorem normalizeTool_idem (t : JSON) :
    normalizeTool (normalizeTool t) = normalizeTool t := by
  conv_lhs => rw [normalizeTool]
  obtain ⟨hn, hs, hr, ha, hu⟩ := normalizeTool_get t
  rw [hn, hs, hr, ha, hu]
  rw [jsOrVal_idem, jsOrVal_idem, jsOrVal_idem, jsNullish_true_idem]
  rw [normalizeTool]
  rw [filter_altOk_idem]

/-- The plan-level normalization pass is idempotent. -/
theorem normalizePlanTools_idem (p : JSON) :
    normalizePlanTools (normalizePlanTools p) = normalizePlanTools p := by
  rcases hp : p.get "tools" with _ | v
  · have h1 : normalizePlanTools p = p := by rw [normalizePlanTools, hp]
    rw [h1, h1]
  · rcases v with _ | b | n | s | xs | fs
    case arr =>
      have hobj : ∃ pfs, p = .obj pfs := by
        cases p <;> simp [JSON.get] at hp
        exact ⟨_, rfl⟩
      obtain ⟨pfs, rfl⟩ := hobj
      have h1 : normalizePlanTools (.obj pfs) =
          JSON.obj (setField pfs "tools" (.arr (xs.map normalizeTool))) := by
        rw [normalizePlanTools, hp]
        rfl
      rw [h1]
      have h2 : (JSON.obj (setField pfs "tools" (.arr (xs.map normalizeTool)))).get "tools" =
          some (.arr (xs.map normalizeTool)) := lookup_setField pfs "tools" _
      rw [normalizePlanTools, h2]
      simp only [JSON.set]
      rw [setField_setField]
      rw [List.map_map]
      rw [show (normalizeTool ∘ normalizeTool) = normalizeTool from
            funext (fun t => normalizeTool_idem t)]
    all_goals
      have h1 : normalizePlanTools p = p := by rw [normalizePlanTools, hp]
      rw [h1, h1]

/-- A successful attempt ends the retry loop at once. -/
theorem retryLoop_ok_at (act : Nat → Except JSError α) (m attempt fuel : Nat)
    (delays : List Nat) (le : JSError) (v : α) (h : act attempt = .ok v) :
    retryLoop act m attempt (fuel + 1) delays le = ⟨.ok v, attempt + 1, delays⟩ := by
  rw [retryLoop, h]

/-- A key held by no entry is not found. -/
theorem find_none_of_no_key {st : CacheState α} {k : String}
    (hnone : ∀ e ∈ st.entries, e.key ≠ k) :
    st.entries.find? (fun e => e.key == k) = none :=
  List.find?_eq_none.mpr (fun e he => by simpa using hnone e he)

/-- Cache-miss run of the enhance-material handler with a first-attempt
success: one API attempt, a best-effort store of the fresh value, and a
`cached:false` success envelope. -/
theorem enhanceHandler_miss_run {α : Type} (H : String → String)
    (attempts : Nat → Except JSError α) (now : Nat) (st : CacheState α)
    (md : MaterialData) (k : String) (v : α)
    (hvalid : (validateMaterialData (some md)).valid = true)
    (hkey : generateCacheKey H md = some k)
    (hnone : ∀ e ∈ st.entries, e.key ≠ k)
    (hfirst : attempts 0 = Except.ok v) :
    enhanceMaterialHandler H attempts now st (some md) =
      ⟨.ok v false,
       (cacheSet ⟨st.entries, st.hits, st.misses + 1⟩ k v (now + stdTTL * 1000)).2,
       1⟩ := by
  rw [enhanceMaterialHandler]
  simp only [hvalid, Bool.true_eq_false, if_false]
  rw [hkey]
  simp only [getCached, cacheGet, find_none_of_no_key hnone]
  rw [getProductRecommendationWithRetry,
      retryLoop_ok_at _ 2 0 2 [] ⟨"", none⟩ v
        (by show getProductRecommendation (attempts 0) = .ok v
            rw [hfirst]
            rfl)]
  simp [setCached]

/-- Cache-hit run of the enhance-material handler: no API attempt, the
hit counter bumped, and a `cached:true` success envelope with the
stored value. -/
theorem enhanceHandler_hit_run {α : Type} (H : String → String)
    (attempts : Nat → Except JSError α) (now : Nat) (st : CacheState α)
    (md : MaterialData) (k : String) (en : CacheEntry α)
    (hvalid : (validateMaterialData (some md)).valid = true)
    (hkey : generateCacheKey H md = some k)
    (hfind : st.entries.find? (fun e => e.key == k) = some en)
    (hlive : now ≤ en.expiresAt) :
    enhanceMaterialHandler H attempts now st (some md) =
      ⟨.ok en.value true, ⟨st.entries, st.hits + 1, st.misses⟩, 0⟩ := by
  rw [enhanceMaterialHandler]
  simp only [hvalid, Bool.true_eq_false, if_false]
  rw [hkey]
  simp only [getCached, cacheGet, hfind, hlive, if_true]

/-- Cache-miss run of the generate-project handler with a first-attempt
success, analogous to `enhanceHandler_miss_run`. -/
theorem generateHandler_miss_run {α : Type} (H : String → String)
    (attempts : Nat → Except JSError α) (now : Nat) (st : CacheState α)
    (pd : ProjectData) (k : String) (v : α)
    (hvalid : (validateProjectData (some pd)).valid = true)
    (hkey : generateProjectCacheKey H pd = some k)
    (hnone : ∀ e ∈ st.entries, e.key ≠ k)
    (hfirst : attempts 0 = Except.ok v) :
    generateProjectHandler H attempts now st (some pd) =
      ⟨.ok v false,
       (cacheSet ⟨st.entries, st.hits, st.misses + 1⟩ k v (now + stdTTL * 1000)).2,
       1⟩ := by
  rw [generateProjectHandler]
  simp only [hvalid, Bool.true_eq_false, if_false]
  rw [hkey]
  simp only [getCached, cacheGet, find_none_of_no_key hnone]
  rw [generateProjectPlanWithRetry, getProductRecommendationWithRetry,
      retryLoop_ok_at _ 2 0 2 [] ⟨"", none⟩ v
        (by show getProductRecommendation (attempts 0) = .ok v
            rw [hfirst]
            rfl)]
  simp [setCached]

/-- Cache-hit run of the generate-project handler, analogous to
`enhanceHandler_hit_run`. -/
theorem generateHandler_hit_run {α : Type} (H : String → String)
    (attempts : Nat → Except JSError α) (now : Nat) (st : CacheState α)
    (pd : ProjectData) (k : String) (en : CacheEntry α)
    (hvalid : (validateProjectData (some pd)).valid = true)
    (hkey : generateProjectCacheKey H pd = some k)
    (hfind : st.entries.find? (fun e => e.key == k) = some en)
    (hlive : now ≤ en.expiresAt) :
    generateProjectHandler H attempts now st (some pd) =
      ⟨.ok en.value true, ⟨st.entries, st.hits + 1, st.misses⟩, 0⟩ := by
  rw [generateProjectHandler]
  simp only [hvalid, Bool.true_eq_false, if_false]
  rw [hkey]
  simp only [getCached, cacheGet, hfind, hlive, if_true]

/-!  Claim theorems. -/

/-- C1.  Get-or-compute caching discipline of the material-enhancement
handler: for a valid payload whose derived key has no cache entry (and a
store below capacity), the external API is invoked exactly once, the
validated result is stored, and the envelope is `cached:false`; the
identical payload submitted again before the stored TTL expires makes no
API attempt and returns `cached:true` with the same data value. -/
theorem claim_c1_get_or_compute (α : Type) (H : String → String)
    (attempts attempts2 : Nat → Except JSError α) (md : MaterialData)
    (st : CacheState α) (now now2 : Nat) (k : String) (v : α)
    (hvalid : (validateMaterialData (some md)).valid = true)
    (hkey : generateCacheKey H md = some k)
    (hnone : ∀ e ∈ st.entries, e.key ≠ k)
    (hroom : st.entries.length < maxKeys)
    (hfirst : attempts 0 = Except.ok v)
    (httl : now2 ≤ now + stdTTL * 1000) :
    (enhanceMaterialHandler H attempts now st (some md)).resp = .ok v false ∧
    (enhanceMaterialHandler H attempts now st (some md)).apiAttempts = 1 ∧
    (enhanceMaterialHandler H attempts now st (some md)).cache.entries =
      ⟨k, v, now + stdTTL * 1000⟩ :: st.entries ∧
    (enhanceMaterialHandler H attempts2 now2
        (enhanceMaterialHandler H attempts now st (some md)).cache (some md)).resp =
      .ok v true ∧
    (enhanceMaterialHandler H attempts2 now2
        (enhanceMaterialHandler H attempts now st (some md)).cache (some md)).apiAttempts =
      0 := by
  have hany : st.entries.any (fun e => e.key == k) = false :=
    List.any_eq_false.mpr (fun e he => by simpa using hnone e he)
  have h1 : enhanceMaterialHandler H attempts now st (some md) =
      ⟨.ok v false, ⟨⟨k, v, now + stdTTL * 1000⟩ :: st.entries, st.hits, st.misses + 1⟩, 1⟩ := by
    rw [enhanceHandler_miss_run H attempts now st md k v hvalid hkey hnone hfirst]
    simp [cacheSet, hany, Nat.not_le.mpr hroom]
  have hfind : (⟨k, v, now + stdTTL * 1000⟩ :: st.entries).find?
      (fun e => e.key == k) = some ⟨k, v, now + stdTTL * 1000⟩ :=
    List.find?_cons_of_pos _ (by simp)
  have h2 : enhanceMaterialHandler H attempts2 now2
      (enhanceMaterialHandler H attempts now st (some md)).cache (some md) =
      ⟨.ok v true,
       ⟨⟨k, v, now + stdTTL * 1000⟩ :: st.entries, st.hits + 1, st.misses + 1⟩, 0⟩ := by
    rw [h1]
    exact enhanceHandler_hit_run H attempts2 now2 _ md k ⟨k, v, now + stdTTL * 1000⟩
      hvalid hkey hfind httl
  exact ⟨by rw [h1], by rw [h1], by rw [h1], by rw [h2], by rw [h2]⟩

/-- Witness for C1 at the concrete payload `{name:"Paint", quantity:2}`
with an empty cache, `H` the identity, and a second request 1s later. -/
theorem claim_c1_get_or_compute_witness :
    (enhanceMaterialHandler (fun s => s) (fun _ => Except.ok (7 : Nat)) 0
        (emptyCache Nat) (some paintPayload)).resp = .ok 7 false ∧
    (enhanceMaterialHandler (fun s => s) (fun _ => Except.ok (7 : Nat)) 0
        (emptyCache Nat) (some paintPayload)).apiAttempts = 1 ∧
    (enhanceMaterialHandler (fun s => s) (fun _ => Except.ok (7 : Nat)) 0
        (emptyCache Nat) (some paintPayload)).cache.entries =
      ⟨"paint__no-spec_v1", 7, stdTTL * 1000⟩ :: [] ∧
    (enhanceMaterialHandler (fun s => s) (fun _ => Except.ok (9 : Nat)) 1000
        (enhanceMaterialHandler (fun s => s) (fun _ => Except.ok (7 : Nat)) 0
          (emptyCache Nat) (some paintPayload)).cache (some paintPayload)).resp =
      .ok 7 true ∧
    (enhanceMaterialHandler (fun s => s) (fun _ => Except.ok (9 : Nat)) 1000
        (enhanceMaterialHandler (fun s => s) (fun _ => Except.ok (7 : Nat)) 0
          (emptyCache Nat) (some paintPayload)).cache (some paintPayload)).apiAttempts =
      0 :=
  claim_c1_get_or_compute Nat (fun s => s) (fun _ => Except.ok 7)
    (fun _ => Except.ok 9) paintPayload (emptyCache Nat) 0 1000
    "paint__no-spec_v1" 7 rfl rfl (by decide) (by decide) rfl (by decide)

/-- C3.  A failed cache write is non-fatal: when the store is at its
maximum entry count (and the derived key is new, so the write is
rejected), the request still succeeds with the freshly computed value in
a `cached:false` envelope, and the set of stored entries is unchanged. -/
theorem claim_c3_failed_write_nonfatal (α : Type) (H : String → String)
    (attempts : Nat → Except JSError α) (md : MaterialData)
    (st : CacheState α) (now : Nat) (k : String) (v : α)
    (hvalid : (validateMaterialData (some md)).valid = true)
    (hkey : generateCacheKey H md = some k)
    (hnone : ∀ e ∈ st.entries, e.key ≠ k)
    (hfull : maxKeys ≤ st.entries.length)
    (hfirst : attempts 0 = Except.ok v) :
    (setCached ⟨st.entries, st.hits, st.misses + 1⟩ k v none now).1 = false ∧
    (enhanceMaterialHandler H attempts now st (some md)).resp = .ok v false ∧
    (enhanceMaterialHandler H attempts now st (some md)).cache.entries =
      st.entries := by
  have hany : st.entries.any (fun e => e.key == k) = false :=
    List.any_eq_false.mpr (fun e he => by simpa using hnone e he)
  have hset : cacheSet (⟨st.entries, st.hits, st.misses + 1⟩ : CacheState α)
      k v (now + stdTTL * 1000) =
      (false, ⟨st.entries, st.hits, st.misses + 1⟩) := by
    simp [cacheSet, hany, hfull]
  have h1 : enhanceMaterialHandler H attempts now st (some md) =
      ⟨.ok v false, ⟨st.entries, st.hits, st.misses + 1⟩, 1⟩ := by
    rw [enhanceHandler_miss_run H attempts now st md k v hvalid hkey hnone hfirst]
    rw [hset]
  refine ⟨?_, by rw [h1], by rw [h1]⟩
  rw [setCached]
  simp only [Option.getD]
  rw [hset]

/-- Witness for C3: a store already holding 1000 unrelated keys rejects
the write for the paint payload's key, yet the handler still answers
`cached:false` with the fresh value and the entries are untouched. -/
theorem claim_c3_failed_write_nonfatal_witness :
    (setCached ⟨fullCacheNat.entries, fullCacheNat.hits, fullCacheNat.misses + 1⟩
        "paint__no-spec_v1" 7 none 0).1 = false ∧
    (enhanceMaterialHandler (fun s => s) (fun _ => Except.ok (7 : Nat)) 0
        fullCacheNat (some paintPayload)).resp = .ok 7 false ∧
    (enhanceMaterialHandler (fun s => s) (fun _ => Except.ok (7 : Nat)) 0
        fullCacheNat (some paintPayload)).cache.entries = fullCacheNat.entries :=
  claim_c3_failed_write_nonfatal Nat (fun s => s) (fun _ => Except.ok 7)
    paintPayload fullCacheNat 0 "paint__no-spec_v1" 7 rfl rfl
    fullCache_no_paint_key fullCache_at_capacity rfl

/-- C9.  Fail-fast on an invalid inbound payload: whenever the cheap
shape validation rejects the body, the handler answers with the 400
validation envelope, makes no API attempt, and leaves the entire cache
state (entries and hit/miss counters) unchanged. -/
theorem claim_c9_fail_fast (α : Type) (H : String → String)
    (attempts : Nat → Except JSError α) (now : Nat) (st : CacheState α)
    (body : Option MaterialData)
    (h : (validateMaterialData body).valid = false) :
    enhanceMaterialHandler H attempts now st body =
      ⟨.validationFailure (validateMaterialData body).error, st, 0⟩ := by
  rw [enhanceMaterialHandler.eq_def]
  simp only [h, if_true]

/-- Witness for C9 at the concrete payload `{quantity:2}` (missing
`name`). -/
theorem claim_c9_fail_fast_witness :
    (validateMaterialData (some quantityOnlyPayload)).valid = false ∧
    enhanceMaterialHandler (fun s => s) (fun _ => Except.ok (0 : Nat)) 0
        (emptyCache Nat) (some quantityOnlyPayload) =
      ⟨.validationFailure "Material name is required and must be a string",
       emptyCache Nat, 0⟩ :=
  ⟨rfl,
   claim_c9_fail_fast Nat (fun s => s) (fun _ => Except.ok 0) 0 (emptyCache Nat)
     (some quantityOnlyPayload) rfl⟩

/-- C2.  Code-bug demonstration.  The claim (and spec §4.4/§8) says an
AUTH failure (upstream 401) is never retried and is surfaced immediately
after the first attempt.  In the code, however, the inner catch block
rewraps a 401 into a fresh `Error` with no `status` property, so the
retry loop's own "Don't retry on client errors" test (which would fire
on the original error, last conjunct) never fires: with every attempt
failing 401, all three attempts run, both backoff delays are slept, and
the rewrapped auth error is surfaced only after exhaustion. -/
theorem claim_c2_auth_is_retried :
    (getProductRecommendationWithRetry
        (fun _ => (Except.error ⟨"401 unauthorized", some 401⟩ : Except JSError Unit))
        2).attemptsMade = 3 ∧
    (getProductRecommendationWithRetry
        (fun _ => (Except.error ⟨"401 unauthorized", some 401⟩ : Except JSError Unit))
        2).delays = [1000, 2000] ∧
    (getProductRecommendationWithRetry
        (fun _ => (Except.error ⟨"401 unauthorized", some 401⟩ : Except JSError Unit))
        2).result = Except.error ⟨"Invalid Anthropic API key", none⟩ ∧
    shouldStopRetry ⟨"401 unauthorized", some 401⟩ = true ∧
    shouldStopRetry (enhanceErrorContext ⟨"401 unauthorized", some 401⟩) = false :=
  ⟨rfl, rfl, rfl, rfl, rfl⟩

/-- C4.  Retry bound and backoff: every retry-wrapper call makes at most
`maxRetries + 1` attempts (3 with the default 2); and when every attempt
fails with an error the loop does not stop early on, all `maxRetries + 1`
attempts run, the sleeps between attempts follow the exponential schedule
`2 ^ attempt * 1000` milliseconds for attempts `0 .. maxRetries - 1`, and
the error of the last attempt is surfaced to the caller unchanged. -/
theorem claim_c4_retry_bound_backoff :
    (∀ (α : Type) (attempts : Nat → Except JSError α) (m : Nat),
      (getProductRecommendationWithRetry attempts m).attemptsMade ≤ m + 1) ∧
    (∀ (α : Type) (attempts : Nat → Except JSError α) (m : Nat)
       (E : Nat → JSError),
      (∀ i, attempts i = .error (E i)) →
      (∀ i, shouldStopRetry (enhanceErrorContext (E i)) = false) →
      getProductRecommendationWithRetry attempts m =
        ⟨.error (enhanceErrorContext (E m)), m + 1,
         (List.range m).map (fun i => 2 ^ i * 1000)⟩) := by
  constructor
  · intro α attempts m
    exact retryLoop_attempts_le _ m (m + 1) 0 [] ⟨"", none⟩ (Nat.zero_le m)
  · intro α attempts m E hact hns
    rw [getProductRecommendationWithRetry]
    rw [retryLoop_all_fail (fun i => getProductRecommendation (attempts i)) m
          (fun i => enhanceErrorContext (E i))
          (fun i => by show getProductRecommendation (attempts i) = _
                       rw [hact i]
                       rfl)
          hns m 0 [] ⟨"", none⟩ (Nat.zero_add m)]
    rw [List.range_eq_range']
    simp

/-- Witness for C4: with every attempt failing 503 and the default bound
`maxRetries = 2`, the wrapper makes exactly three attempts, sleeps 1s
then 2s, and surfaces the rewrapped server error of the final attempt. -/
theorem claim_c4_retry_bound_backoff_witness :
    getProductRecommendationWithRetry
        (fun _ => (Except.error ⟨"503 upstream", some 503⟩ : Except JSError Unit)) 2 =
      ⟨Except.error ⟨"Claude API server error", none⟩, 3, [1000, 2000]⟩ :=
  claim_c4_retry_bound_backoff.2 Unit
    (fun _ => Except.error ⟨"503 upstream", some 503⟩) 2
    (fun _ => ⟨"503 upstream", some 503⟩) (fun _ => rfl) (fun _ => rfl)

/-- Key derivation only depends on the three normalized components. -/
theorem compositeKey_congr {m m' : MaterialData}
    (h1 : normalizeComponent m.name "" = normalizeComponent m'.name "")
    (h2 : normalizeComponent m.category "" = normalizeComponent m'.category "")
    (h3 : normalizeComponent m.specification "no-spec" =
          normalizeComponent m'.specification "no-spec") :
    compositeKey m = compositeKey m' := by
  simp only [compositeKey, h1, h2, h3]

/-- Hash-level version of `compositeKey_congr`. -/
theorem generateCacheKey_congr (H : String → String) {m m' : MaterialData}
    (h1 : normalizeComponent m.name "" = normalizeComponent m'.name "")
    (h2 : normalizeComponent m.category "" = normalizeComponent m'.category "")
    (h3 : normalizeComponent m.specification "no-spec" =
          normalizeComponent m'.specification "no-spec") :
    generateCacheKey H m = generateCacheKey H m' := by
  rw [generateCacheKey, generateCacheKey, compositeKey_congr h1 h2 h3]

/-- A string-or-absent component never raises. -/
theorem jsStrOr_of_strOpt (x : Option String) (d : String) :
    ∃ y, jsStrOr (x.map JSON.str) d = some y := by
  rcases x with _ | s
  · exact ⟨d, rfl⟩
  · by_cases h : s = ""
    · subst h
      exact ⟨d, rfl⟩
    · exact ⟨s, by simp [jsStrOr, JSON.truthy, h]⟩

/-- C5 counterexample.  The claim says any two payloads that differ in
normalized name, category or specification produce different keys.  But
the components are glued with `_` before hashing, so an underscore
inside a field shifts the component boundary: `{name:"a",
category:"b_c"}` and `{name:"a_b", category:"c"}` have different
normalized names and categories yet identical composite strings — hence
identical SHA-256 keys, whatever the digest function. -/
theorem claim_c5_counterexample :
    generateCacheKey (fun s => s) ⟨some (.str "a"), some (.str "b_c"), none, none⟩ =
      generateCacheKey (fun s => s) ⟨some (.str "a_b"), some (.str "c"), none, none⟩ ∧
    compositeKey ⟨some (.str "a"), some (.str "b_c"), none, none⟩ =
      compositeKey ⟨some (.str "a_b"), some (.str "c"), none, none⟩ ∧
    normalizeComponent (some (JSON.str "a")) "" ≠
      normalizeComponent (some (JSON.str "a_b")) "" ∧
    normalizeComponent (some (JSON.str "b_c")) "" ≠
      normalizeComponent (some (JSON.str "c")) "" :=
  ⟨rfl, rfl, by decide, by decide⟩

/-- C5 (amended).  Key derivation is deterministic; it is insensitive to
anything the per-component normalization erases (in particular letter
case and surrounding whitespace, e.g. `{name:"Paint"}` versus
`{name:" paint "}`); and two payloads differing in their normalized
name, category or specification produce different keys, provided the
digest is injective and the normalized name and category contain no
underscore (an underscore can shift the `_`-separator boundaries of the
composite string, as the counterexample shows). -/
theorem claim_c5_amended_key_properties :
    (∀ (H : String → String) (m : MaterialData),
      generateCacheKey H m = generateCacheKey H m) ∧
    (∀ (H : String → String) (m m' : MaterialData),
      normalizeComponent m.name "" = normalizeComponent m'.name "" →
      normalizeComponent m.category "" = normalizeComponent m'.category "" →
      normalizeComponent m.specification "no-spec" =
        normalizeComponent m'.specification "no-spec" →
      generateCacheKey H m = generateCacheKey H m') ∧
    (∀ H : String → String,
      generateCacheKey H (mkMat (some "Paint") none none) =
        generateCacheKey H (mkMat (some " paint ") none none)) ∧
    (∀ H : String → String, Function.Injective H →
      ∀ (m m' : MaterialData) (n c s n' c' s' : String),
      normalizeComponent m.name "" = some n →
      normalizeComponent m.category "" = some c →
      normalizeComponent m.specification "no-spec" = some s →
      normalizeComponent m'.name "" = some n' →
      normalizeComponent m'.category "" = some c' →
      normalizeComponent m'.specification "no-spec" = some s' →
      '_' ∉ n.data → '_' ∉ c.data → '_' ∉ n'.data → '_' ∉ c'.data →
      (n, c, s) ≠ (n', c', s') →
      generateCacheKey H m ≠ generateCacheKey H m') := by
  refine ⟨fun H m => rfl, fun H m m' h1 h2 h3 => generateCacheKey_congr H h1 h2 h3,
    fun H => generateCacheKey_congr H (by decide) rfl rfl, ?_⟩
  intro H hinj m m' n c s n' c' s' hn hc hs hn' hc' hs' un uc un' uc' hne heq
  rw [generateCacheKey, generateCacheKey, compositeKey_of hn hc hs,
      compositeKey_of hn' hc' hs', Option.map_some', Option.map_some'] at heq
  have hg := hinj (Option.some.inj heq)
  obtain ⟨e1, e2, e3⟩ := compositeInj un uc un' uc' hg
  exact hne (by rw [e1, e2, e3])

/-- Witness for the amended C5: with the identity digest, the payloads
`{name:"Paint"}` and `{name:"Nails"}` receive different keys. -/
theorem claim_c5_amended_key_properties_witness :
    generateCacheKey (fun s => s) (mkMat (some "Paint") none none) ≠
      generateCacheKey (fun s => s) (mkMat (some "Nails") none none) :=
  claim_c5_amended_key_properties.2.2.2 (fun s => s) (fun a b h => h)
    (mkMat (some "Paint") none none) (mkMat (some "Nails") none none)
    "paint" "" "no-spec" "nails" "" "no-spec"
    rfl rfl rfl rfl rfl rfl
    (by decide) (by decide) (by decide) (by decide) (by decide)

/-- C6 counterexample.  The claim says a payload with `specification`
absent and the otherwise-identical payload with `specification: ""` get
distinguishable (unequal) keys.  In the code the sentinel substitution
is `(specification || 'no-spec')`, and the empty string is falsy in
JavaScript, so both payloads normalize to the sentinel and get the same
composite string — hence the same key, whatever the digest function. -/
theorem claim_c6_counterexample :
    generateCacheKey (fun s => s) (mkMat (some "paint") none none) =
      generateCacheKey (fun s => s) (mkMat (some "paint") none (some "")) ∧
    compositeKey (mkMat (some "paint") none none) =
      compositeKey (mkMat (some "paint") none (some "")) :=
  ⟨rfl, rfl⟩

/-- C6 (amended).  `generateCacheKey` substitutes the fixed sentinel
`no-spec` for a missing — or empty, since `""` is falsy under `||` —
specification, so absence and the empty string produce the *same* key;
the derivation stays deterministic and total (never fails) on payloads
whose fields are strings or absent. -/
theorem claim_c6_amended_sentinel :
    (∀ (H : String → String) (n c : Option String),
      generateCacheKey H (mkMat n c none) =
        generateCacheKey H (mkMat n c (some ""))) ∧
    normalizeComponent none "no-spec" = some "no-spec" ∧
    normalizeComponent (some (JSON.str "")) "no-spec" = some "no-spec" ∧
    (∀ (H : String → String) (n c s : Option String),
      (generateCacheKey H (mkMat n c s)).isSome = true) ∧
    (∀ (H : String → String) (m : MaterialData),
      generateCacheKey H m = generateCacheKey H m) := by
  refine ⟨fun H n c => generateCacheKey_congr H rfl rfl rfl, rfl, rfl, ?_,
    fun H m => rfl⟩
  intro H n c s
  obtain ⟨yn, hyn⟩ := jsStrOr_of_strOpt n ""
  obtain ⟨yc, hyc⟩ := jsStrOr_of_strOpt c ""
  obtain ⟨ys, hys⟩ := jsStrOr_of_strOpt s "no-spec"
  have hn : normalizeComponent (mkMat n c s).name "" = some (jsNormalize yn) := by
    rw [normalizeComponent, mkMat, hyn, Option.map_some']
  have hc : normalizeComponent (mkMat n c s).category "" = some (jsNormalize yc) := by
    rw [normalizeComponent, mkMat, hyc, Option.map_some']
  have hs : normalizeComponent (mkMat n c s).specification "no-spec" =
      some (jsNormalize ys) := by
    rw [normalizeComponent, mkMat, hys, Option.map_some']
  rw [generateCacheKey, compositeKey_of hn hc hs, Option.map_some', Option.isSome_some]

/-- C8.  Tools normalization before validation: a scalar string
`alternatives` is coerced to the empty array; alternative entries
missing a truthy `name` or `specification` are dropped; missing
`specification`/`usage` backfill to `""` and missing `required` to
`true`; a plan's `tools` array stays an array after the pass (so the
validator's `tools` check passes, in particular for a tool with
`alternatives:"n/a"`); and the pass is idempotent at both the plan and
the tool level.  (Totality holds by construction: the pass is a total
function of the decoded value.) -/
theorem claim_c8_tools_normalization :
    (∀ (t : JSON) (s : String), t.get "alternatives" = some (.str s) →
      (normalizeTool t).get "alternatives" = some (.arr [])) ∧
    (∀ (t : JSON) (xs : List JSON), t.get "alternatives" = some (.arr xs) →
      (normalizeTool t).get "alternatives" = some (.arr (xs.filter altOk))) ∧
    (∀ t : JSON, t.get "specification" = none →
      (normalizeTool t).get "specification" = some (.str "")) ∧
    (∀ t : JSON, t.get "usage" = none →
      (normalizeTool t).get "usage" = some (.str "")) ∧
    (∀ t : JSON, t.get "required" = none →
      (normalizeTool t).get "required" = some (.bool true)) ∧
    (∀ (p : JSON) (xs : List JSON), p.get "tools" = some (.arr xs) →
      (normalizePlanTools p).get "tools" = some (.arr (xs.map normalizeTool)) ∧
      (normalizePlanTools p).fieldIsArray "tools" = true) ∧
    (∀ p : JSON, normalizePlanTools (normalizePlanTools p) = normalizePlanTools p) ∧
    (∀ t : JSON, normalizeTool (normalizeTool t) = normalizeTool t) := by
  have halts : ∀ (t : JSON), (normalizeTool t).get "alternatives" =
      some (.arr ((match t.get "alternatives" with
                   | some (.arr xs) => xs
                   | _ => []).filter altOk)) :=
    fun t => (normalizeTool_get t).2.2.2.1
  refine ⟨?_, ?_, ?_, ?_, ?_, ?_, normalizePlanTools_idem, normalizeTool_idem⟩
  · intro t s h
    rw [halts t, h]
    rfl
  · intro t xs h
    rw [halts t, h]
  · intro t h
    have := (normalizeTool_get t).2.1
    rw [h] at this
    exact this
  · intro t h
    have := (normalizeTool_get t).2.2.2.2
    rw [h] at this
    exact this
  · intro t h
    have := (normalizeTool_get t).2.2.1
    rw [h] at this
    exact this
  · intro p xs h
    have hobj : ∃ pfs, p = .obj pfs := by
      cases p <;> simp [JSON.get] at h
      exact ⟨_, rfl⟩
    obtain ⟨pfs, rfl⟩ := hobj
    have h1 : normalizePlanTools (.obj pfs) =
        JSON.obj (setField pfs "tools" (.arr (xs.map normalizeTool))) := by
      rw [normalizePlanTools, h]
      rfl
    have h2 : (normalizePlanTools (.obj pfs)).get "tools" =
        some (.arr (xs.map normalizeTool)) := by
      rw [h1]
      exact lookup_setField pfs "tools" _
    refine ⟨h2, ?_⟩
    rw [JSON.fieldIsArray, h2]

/-- Witness for C8: the fixture tool with `alternatives:"n/a"` is
normalized to `alternatives: []`, and a one-tool plan keeps an array
`tools` field after the pass. -/
theorem claim_c8_tools_normalization_witness :
    (normalizeTool toolWithStringAlts).get "alternatives" = some (.arr []) ∧
    (normalizePlanTools (.obj [("tools", .arr [toolWithStringAlts])])).fieldIsArray
      "tools" = true :=
  ⟨claim_c8_tools_normalization.1 toolWithStringAlts "n/a" rfl,
   (claim_c8_tools_normalization.2.2.2.2.2.1
      (.obj [("tools", .arr [toolWithStringAlts])]) [toolWithStringAlts] rfl).2⟩

/-- Every material composite key ends in the version tag `v1`. -/
theorem compositeKey_ends_v1 (m : MaterialData) (g : String)
    (h : compositeKey m = some g) : ∃ pre, g = pre ++ "v1" := by
  rcases hn : normalizeComponent m.name "" with _ | n
  · rw [compositeKey, hn] at h
    simp at h
  rcases hc : normalizeComponent m.category "" with _ | c
  · rw [compositeKey, hn, hc] at h
    simp at h
  rcases hs : normalizeComponent m.specification "no-spec" with _ | s
  · rw [compositeKey, hn, hc, hs] at h
    simp at h
  rw [compositeKey_of hn hc hs] at h
  exact ⟨n ++ "_" ++ c ++ "_" ++ s ++ "_", (Option.some.inj h).symm⟩

/-- C10.  The project-generation cache key depends only on the
lowercased, trimmed description: its hash input is exactly the
normalized description (so no version tag enters it, unlike the
material key, whose hash input always carries the `v1` suffix), two
payloads with equal normalized descriptions get equal keys regardless
of their context, and consequently a plan cached under one context is
served from the cache to a request with any other context and never
reaches the external API. -/
theorem claim_c10_context_blind_project_key :
    (∀ (p : ProjectData) (s : String), p.description = some (.str s) →
      projectHashInput p = some (jsNormalize s)) ∧
    (∀ (m : MaterialData) (g : String), compositeKey m = some g →
      ∃ pre, g = pre ++ "v1") ∧
    (∀ (H : String → String) (p p' : ProjectData),
      projectHashInput p = projectHashInput p' →
      generateProjectCacheKey H p = generateProjectCacheKey H p') ∧
    (∀ (α : Type) (H : String → String)
       (attempts attempts2 : Nat → Except JSError α) (p p' : ProjectData)
       (st : CacheState α) (now now2 : Nat) (k : String) (v : α),
      (validateProjectData (some p)).valid = true →
      (validateProjectData (some p')).valid = true →
      generateProjectCacheKey H p = some k →
      projectHashInput p' = projectHashInput p →
      (∀ e ∈ st.entries, e.key ≠ k) →
      st.entries.length < maxKeys →
      attempts 0 = Except.ok v →
      now2 ≤ now + stdTTL * 1000 →
      (generateProjectHandler H attempts2 now2
          (generateProjectHandler H attempts now st (some p)).cache
          (some p')).resp = .ok v true ∧
      (generateProjectHandler H attempts2 now2
          (generateProjectHandler H attempts now st (some p)).cache
          (some p')).apiAttempts = 0) := by
  refine ⟨fun p s h => by rw [projectHashInput, h],
    compositeKey_ends_v1,
    fun H p p' h => by rw [generateProjectCacheKey, generateProjectCacheKey, h],
    ?_⟩
  intro α H attempts attempts2 p p' st now now2 k v hv hv' hkey hinput hnone
    hroom hfirst httl
  have hkey' : generateProjectCacheKey H p' = some k := by
    rw [generateProjectCacheKey, hinput, ← generateProjectCacheKey, hkey]
  have hany : st.entries.any (fun e => e.key == k) = false :=
    List.any_eq_false.mpr (fun e he => by simpa using hnone e he)
  have h1 : generateProjectHandler H attempts now st (some p) =
      ⟨.ok v false, ⟨⟨k, v, now + stdTTL * 1000⟩ :: st.entries, st.hits, st.misses + 1⟩, 1⟩ := by
    rw [generateHandler_miss_run H attempts now st p k v hv hkey hnone hfirst]
    simp [cacheSet, hany, Nat.not_le.mpr hroom]
  have hfind : (⟨k, v, now + stdTTL * 1000⟩ :: st.entries).find?
      (fun e => e.key == k) = some ⟨k, v, now + stdTTL * 1000⟩ :=
    List.find?_cons_of_pos _ (by simp)
  have h2 : generateProjectHandler H attempts2 now2
      (generateProjectHandler H attempts now st (some p)).cache (some p') =
      ⟨.ok v true,
       ⟨⟨k, v, now + stdTTL * 1000⟩ :: st.entries, st.hits + 1, st.misses + 1⟩, 0⟩ := by
    rw [h1]
    exact generateHandler_hit_run H attempts2 now2 _ p' k ⟨k, v, now + stdTTL * 1000⟩
      hv' hkey' hfind httl
  exact ⟨by rw [h2], by rw [h2]⟩

/-- Witness for C10: the plan computed for `"fix a leaky faucet"` under
a `homeType` context is served from the cache to the later request
`"Fix a LEAKY faucet  "` under a `budget` context, with no API attempt. -/
theorem claim_c10_context_blind_project_key_witness :
    (generateProjectHandler (fun s => s) (fun _ => Except.ok (9 : Nat)) 1000
        (generateProjectHandler (fun s => s) (fun _ => Except.ok (5 : Nat)) 0
          (emptyCache Nat)
          (some (mkProj "fix a leaky faucet"
            (some (.obj [("homeType", .str "apartment")]))))).cache
        (some (mkProj "Fix a LEAKY faucet  "
          (some (.obj [("budget", .str "low")]))))).resp = .ok 5 true ∧
    (generateProjectHandler (fun s => s) (fun _ => Except.ok (9 : Nat)) 1000
        (generateProjectHandler (fun s => s) (fun _ => Except.ok (5 : Nat)) 0
          (emptyCache Nat)
          (some (mkProj "fix a leaky faucet"
            (some (.obj [("homeType", .str "apartment")]))))).cache
        (some (mkProj "Fix a LEAKY faucet  "
          (some (.obj [("budget", .str "low")]))))).apiAttempts = 0 :=
  claim_c10_context_blind_project_key.2.2.2 Nat (fun s => s)
    (fun _ => Except.ok 5) (fun _ => Except.ok 9)
    (mkProj "fix a leaky faucet" (some (.obj [("homeType", .str "apartment")])))
    (mkProj "Fix a LEAKY faucet  " (some (.obj [("budget", .str "low")])))
    (emptyCache Nat) 0 1000 "project_fix a leaky faucet" 5
    rfl rfl rfl (by decide) (by decide) (by decide) rfl (by decide)

/-- C7.  Structural validation of a project plan, characterized exactly:
a candidate is accepted iff it is a truthy object carrying every
required field (title, description, category, difficulty, estimatedTime,
steps, materials, tools, safetyTips, estimatedCost, commonMistakes —
successCriteria is not required), its `steps` is a non-empty array each
of whose elements has a truthy step identifier under either historical
name (`stepNumber` or `order`), a truthy `title`, and a truthy
instruction under either historical name (`instruction` or
`instructions`), and materials/tools/safetyTips/commonMistakes are
arrays.  In particular a candidate missing `steps`, or whose `steps` is
not a non-empty array, is rejected. -/
theorem claim_c7_plan_structural_validation (plan : JSON) :
    (validateProjectPlan plan).valid = true ↔
      (plan.truthy = true ∧ plan.typeOf = "object" ∧
       (∀ f ∈ requiredPlanFields, plan.hasField f = true) ∧
       (∃ steps : List JSON, plan.get "steps" = some (.arr steps) ∧
          steps ≠ [] ∧ ∀ s ∈ steps, stepOk s = true) ∧
       plan.fieldIsArray "materials" = true ∧
       plan.fieldIsArray "tools" = true ∧
       plan.fieldIsArray "safetyTips" = true ∧
       plan.fieldIsArray "commonMistakes" = true) := by
  rw [validateProjectPlan]
  cases hA : (!plan.truthy || plan.typeOf != "object") with
  | true =>
    rw [if_pos rfl]
    refine iff_of_false (by simp) ?_
    rintro ⟨h1, h2, -⟩
    simp [h1, h2] at hA
  | false =>
    have hA' : plan.truthy = true ∧ plan.typeOf = "object" := by
      simpa using hA
    rw [if_neg Bool.false_ne_true]
    rcases hm : findMissingField plan requiredPlanFields with _ | f
    case some =>
      simp only [hm]
      refine iff_of_false (by simp) ?_
      rintro ⟨-, -, hpres, -⟩
      obtain ⟨hmem, habs⟩ := findMissingField_eq_some requiredPlanFields f hm
      rw [hpres f hmem] at habs
      cases habs
    case none =>
      have hpres : ∀ g ∈ requiredPlanFields, plan.hasField g = true :=
        (findMissingField_eq_none requiredPlanFields).mp hm
      simp only [hm]
      rcases hst : plan.get "steps" with _ | v
      · refine iff_of_false (by simp) ?_
        rintro ⟨-, -, -, ⟨steps, hsteps, -⟩, -⟩
        exact Option.noConfusion hsteps
      · rcases v with _ | b | nn | ss | steps | fs
        case arr =>
          cases steps with
          | nil =>
            refine iff_of_false (by simp) ?_
            rintro ⟨-, -, -, ⟨steps', hsteps, hne, -⟩, -⟩
            injection hsteps with h'
            injection h' with h''
            exact hne h''.symm
          | cons s0 rest =>
            cases hall : (s0 :: rest).all stepOk with
            | false =>
              refine iff_of_false (by simp [hall]) ?_
              rintro ⟨-, -, -, ⟨steps', hsteps, -, hok⟩, -⟩
              injection hsteps with h'
              injection h' with h''
              rw [← h''] at hok
              rw [List.all_eq_true.mpr hok] at hall
              cases hall
            | true =>
              cases h1 : plan.fieldIsArray "materials" with
              | false =>
                refine iff_of_false (by simp [hall, h1]) ?_
                rintro ⟨-, -, -, -, hx, -⟩
                exact Bool.noConfusion hx
              | true =>
                cases h2 : plan.fieldIsArray "tools" with
                | false =>
                  refine iff_of_false (by simp [hall, h1, h2]) ?_
                  rintro ⟨-, -, -, -, -, hx, -⟩
                  exact Bool.noConfusion hx
                | true =>
                  cases h3 : plan.fieldIsArray "safetyTips" with
                  | false =>
                    refine iff_of_false (by simp [hall, h1, h2, h3]) ?_
                    rintro ⟨-, -, -, -, -, -, hx, -⟩
                    exact Bool.noConfusion hx
                  | true =>
                    cases h4 : plan.fieldIsArray "commonMistakes" with
                    | false =>
                      refine iff_of_false (by simp [hall, h1, h2, h3, h4]) ?_
                      rintro ⟨-, -, -, -, -, -, -, hx⟩
                      exact Bool.noConfusion hx
                    | true =>
                      refine iff_of_true (by simp [hall, h1, h2, h3, h4]) ?_
                      exact ⟨hA'.1, hA'.2, hpres,
                        ⟨s0 :: rest, rfl, List.cons_ne_nil s0 rest,
                         List.all_eq_true.mp hall⟩, rfl, rfl, rfl, rfl⟩
        all_goals
          refine iff_of_false (by simp) ?_
          rintro ⟨-, -, -, ⟨steps', hsteps, -⟩, -⟩
          injection hsteps with h'
          exact JSON.noConfusion h'

end DiyHub
